import Mathlib

/-
Verification development for the Quantus-Network/common cryptographic
identity layer.

Shallow embedding of:
  * src/packages/util-crypto/src/signature/verify.ts
    (signatureVerify, getVerifyFn, verifyMultisig, verifyDetect and the
    verifier tables VERIFIERS / VERIFIERS_ECDSA);
  * the keyring pair factory createPair (derive, lock, sign, recode,
    decodePkcs8, encodeAddress, verify) together with its dispatch
    tables TYPE_ADDRESS, TYPE_SIGNATURE, TYPE_FROM_SEED and the
    one-byte discriminator table;
  * the HDKD dispatcher keyFromPath and its generators registry.

Byte sequences are modelled as List Nat.  The external cryptographic
primitives (per-algorithm verify and sign functions, hashes, seed
expansion, the PKCS8 container codec and the message-wrapping helpers
of the util package) are not under src; they are modelled as abstract
oracle parameters, so every theorem is quantified over them.  A
primitive that can throw is modelled as returning an Option or Except
value, none / error standing for the thrown exception.
-/

namespace QuantusCommon

/-- Byte strings of the source are modelled as lists of naturals. -/
abbrev Bytes := List Nat

/-- The closed enumeration KeypairType of the source: the five
supported signature algorithm families. -/
inductive KeypairType where
  | ecdsa
  | ed25519
  | ethereum
  | mldsa
  | sr25519
deriving DecidableEq, Repr

/-- Hash flavour argument of secp256k1Verify / secp256k1Sign. -/
inductive HashType where
  | blake2
  | keccak
deriving DecidableEq, Repr

/-- The two error conditions thrown by the verification engine:
the length guard of signatureVerify and the discriminator guard of
verifyMultisig.  Distinct constructors model the distinct thrown
Error messages of the source. -/
inductive VerifyError where
  | invalidLength (found : Nat)
  | unknownCryptoType (found : Nat)
deriving DecidableEq, Repr

/-- Oracle for the external per-algorithm verify primitives
(ed25519Verify, sr25519Verify, mldsaVerify, secp256k1Verify).  They
live outside src; a result of none models a thrown exception, some b
a normal boolean return. -/
structure CryptoOracle where
  ed25519Verify : Bytes → Bytes → Bytes → Option Bool
  sr25519Verify : Bytes → Bytes → Bytes → Option Bool
  mldsaVerify : Bytes → Bytes → Bytes → Option Bool
  secp256k1Verify : Bytes → Bytes → Bytes → HashType → Option Bool

/-- Oracle for the message-wrapping helpers of the util package
(u8aIsWrapped, u8aWrapBytes, u8aUnwrapBytes), which are not under src.
Modelled from the spec: signing front-ends may wrap a message in a
display-safe envelope; isWrappedAny is u8aIsWrapped with the
withEthereum flag set (bytes-wrapped or ethereum-prefixed),
isWrappedBytes is u8aIsWrapped without it. -/
structure WrapOracle where
  isWrappedAny : Bytes → Bool
  isWrappedBytes : Bytes → Bool
  wrapBytes : Bytes → Bytes
  unwrapBytes : Bytes → Bytes

/-- VerifyResult of the source: matched algorithm (none models the
string literal none of the source), validity flag, wrapping flag and
the public key used. -/
structure VerifyResult where
  crypto : Option KeypairType
  isValid : Bool
  isWrapped : Bool
  publicKey : Bytes
deriving DecidableEq, Repr

/-- VerifyInput of the source. -/
structure VerifyInput where
  message : Bytes
  publicKey : Bytes
  signature : Bytes
deriving DecidableEq, Repr

/-- Fixed ML-DSA signature length.  The constants module is not under
src; the comment in signature/verify.ts states that the prefixed
ML-DSA signature is 4628 bytes (one prefix byte plus the signature),
so the bare length is 4627. -/
def MLDSA_SIGNATURE_LENGTH : Nat := 4627

/-- Listing of the verifier table VERIFIERS of the source, by
algorithm tag: the three families whose bare signatures are tried
first. -/
def VERIFIERS : List KeypairType := [.ed25519, .mldsa, .sr25519]

/-- Listing of the verifier table VERIFIERS_ECDSA of the source:
generic secp256k1 (blake2 hashing) then the Ethereum flavour
(keccak hashing). -/
def VERIFIERS_ECDSA : List KeypairType := [.ecdsa, .ethereum]

/-- The function paired with each algorithm tag in the verifier
tables of the source: ecdsa and ethereum are secp256k1Verify
specialised by secp256k1VerifyHasher, the rest are the native verify
primitives. -/
def verify1 (o : CryptoOracle) (c : KeypairType) (m s p : Bytes) : Option Bool :=
  match c with
  | .ecdsa => o.secp256k1Verify m s p .blake2
  | .ed25519 => o.ed25519Verify m s p
  | .ethereum => o.secp256k1Verify m s p .keccak
  | .mldsa => o.mldsaVerify m s p
  | .sr25519 => o.sr25519Verify m s p

/-- The some-loop inside verifyDetect: scan the verifier list in
order, return the first tag whose verify call returns true; a thrown
exception (none) counts as failure and the scan continues. -/
def detectLoop (o : CryptoOracle) (m s p : Bytes) : List KeypairType → Option KeypairType
  | [] => none
  | c :: cs =>
    match verify1 o c m s p with
    | some true => some c
    | _ => detectLoop o m s p cs

/-- verifyDetect of the source: sets isValid from the scan, records
the matching tag in crypto on success and leaves crypto unchanged on
failure. -/
def verifyDetect (o : CryptoOracle) (result : VerifyResult) (input : VerifyInput)
    (verifiers : List KeypairType) : VerifyResult :=
  match detectLoop o input.message input.signature input.publicKey verifiers with
  | some c => { result with crypto := some c, isValid := true }
  | none => { result with isValid := false }

/-- verifyDetect at its default verifier list, as called from
getVerifyFn: all five families, 64-byte families first. -/
def verifyDetectAll (o : CryptoOracle) (result : VerifyResult) (input : VerifyInput) : VerifyResult :=
  verifyDetect o result input (VERIFIERS ++ VERIFIERS_ECDSA)

/-- verifyMultisig of the source.  The first guard throws on a
signature whose first byte and length do not match the prefixed
shape; byte 3 at the prefixed lattice length dispatches to the single
mldsa verifier on the stripped signature; length 66 dispatches to the
two secp256k1 verifiers on the stripped signature; otherwise (length
65) the three 64-byte families are tried on the stripped signature
and, on failure, the secp256k1 verifiers on the full signature, with
crypto reset to none when both fail. -/
def verifyMultisig (o : CryptoOracle) (result : VerifyResult) (input : VerifyInput) :
    Except VerifyError VerifyResult :=
  let sig := input.signature
  let s0 := sig.headD 0
  if (!([0, 1, 2].contains s0) || !([65, 66].contains sig.length)) &&
      !(s0 == 3 && sig.length == MLDSA_SIGNATURE_LENGTH + 1) then
    .error (.unknownCryptoType s0)
  else if s0 == 3 && sig.length == MLDSA_SIGNATURE_LENGTH + 1 then
    .ok (verifyDetect o result ⟨input.message, input.publicKey, sig.tail⟩ [.mldsa])
  else if sig.length == 66 then
    .ok (verifyDetect o result ⟨input.message, input.publicKey, sig.tail⟩ VERIFIERS_ECDSA)
  else
    let r1 := verifyDetect o result ⟨input.message, input.publicKey, sig.tail⟩ VERIFIERS
    let r2 := if !r1.isValid then verifyDetect o r1 input VERIFIERS_ECDSA else r1
    let r3 := if !r2.isValid then { r2 with crypto := none } else r2
    .ok r3

/-- The classification test of getVerifyFn: first byte in 0..2 with
length 65 or 66, or first byte 3 with the prefixed lattice length. -/
def isPrefixedShape (sig : Bytes) : Bool :=
  ([0, 1, 2].contains (sig.headD 0) && [65, 66].contains sig.length) ||
  (sig.headD 0 == 3 && sig.length == MLDSA_SIGNATURE_LENGTH + 1)

/-- getVerifyFn of the source: prefixed-shaped signatures go to
verifyMultisig, everything else to verifyDetect at its default
verifier list (which never throws, hence the ok wrapper). -/
def getVerifyFn (sig : Bytes) :
    CryptoOracle → VerifyResult → VerifyInput → Except VerifyError VerifyResult :=
  if isPrefixedShape sig then verifyMultisig
  else fun o result input => .ok (verifyDetectAll o result input)

/-- The valid signature length table of signatureVerify. -/
def VALID_SIG_LENGTHS : List Nat :=
  [64, 65, 66, MLDSA_SIGNATURE_LENGTH, MLDSA_SIGNATURE_LENGTH + 1]

/-- signatureVerify of the source.  The address codec decodeAddress
is outside src; a raw public key passes through it unchanged, so the
third argument is taken as the decoded public key bytes.  The length
guard throws before anything else; then one pass of the dispatched
verify function runs, and if it found no algorithm and the message is
not in the untoggleable wrapped state, a single second pass runs on
the message with its wrapping toggled. -/
def signatureVerify (o : CryptoOracle) (w : WrapOracle)
    (message sig publicKey : Bytes) : Except VerifyError VerifyResult :=
  if !(VALID_SIG_LENGTHS.contains sig.length) then
    .error (.invalidLength sig.length)
  else
    let input : VerifyInput := ⟨message, publicKey, sig⟩
    let result : VerifyResult := ⟨none, false, w.isWrappedAny message, publicKey⟩
    let wrappedBytes := w.isWrappedBytes message
    match getVerifyFn sig o result input with
    | .error e => .error e
    | .ok r1 =>
      if r1.crypto.isSome || (r1.isWrapped && !wrappedBytes) then
        .ok r1
      else
        getVerifyFn sig o r1
          ⟨if wrappedBytes then w.unwrapBytes message else w.wrapBytes message,
            publicKey, sig⟩

/-- Keypair of the util-crypto types: raw public and secret key
bytes. -/
structure Keypair where
  publicKey : Bytes
  secretKey : Bytes
deriving DecidableEq, Repr

/-- DeriveJunction: one derivation path step, a chain code plus the
hard/soft flag (spec section 3). -/
structure DeriveJunction where
  chainCode : Bytes
  isHard : Bool
deriving DecidableEq, Repr

/-- Error conditions thrown by the keyring pair operations and the
HDKD dispatcher.  Each constructor models one distinct thrown Error
of the source; decodeFailed stands for a failure inside the external
container codec. -/
inductive PairError where
  | unableToDerive
  | cannotDeriveLocked
  | cannotSignLocked
  | invalidMldsaKeySizes (secretLen publicLen : Nat)
  | unsupportedKeypairType
  | decodeFailed
deriving DecidableEq, Repr

/-- Oracle for the external per-algorithm derivation step functions
consumed by the generators registry (keyHdkdEcdsa, keyHdkdEd25519,
keyHdkdSr25519, keyHdkdMldsa), which are not under src. -/
structure HdkdSteps where
  keyHdkdEcdsa : Keypair → DeriveJunction → Keypair
  keyHdkdEd25519 : Keypair → DeriveJunction → Keypair
  keyHdkdSr25519 : Keypair → DeriveJunction → Keypair
  keyHdkdMldsa : Keypair → DeriveJunction → Keypair

/-- The generators registry of keyFromPath, as written in the source:
ethereum is mapped to keyHdkdEcdsa (the source carries a FIXME noting
this is Substrate-compatible rather than Ethereum-compatible).  The
Option result models the lookup possibly missing, which the guard in
keyFromPath checks. -/
def generators (s : HdkdSteps) : KeypairType → Option (Keypair → DeriveJunction → Keypair)
  | .ecdsa => some s.keyHdkdEcdsa
  | .ed25519 => some s.keyHdkdEd25519
  | .ethereum => some s.keyHdkdEcdsa
  | .mldsa => some s.keyHdkdMldsa
  | .sr25519 => some s.keyHdkdSr25519

/-- keyFromPath of the source: look the step function up in the
generators registry (throwing when absent) and fold it left-to-right
over the junction path. -/
def keyFromPath (s : HdkdSteps) (pair : Keypair) (path : List DeriveJunction)
    (type : KeypairType) : Except PairError Keypair :=
  match generators s type with
  | none => .error .unsupportedKeypairType
  | some keyHdkd => .ok (path.foldl keyHdkd pair)

/-- Pair state owned by the createPair closure: key material, the
immutable algorithm identifier, metadata, and the cached encoded
container with its accepted legacy encodings. -/
structure PairState where
  publicKey : Bytes
  secretKey : Bytes
  type : KeypairType
  meta : List (String × String)
  encoded : Option Bytes
  encTypes : Option (List String)
deriving DecidableEq, Repr

/-- Modelled from the spec: u8aEmpty of the util package is not under
src.  The spec treats the locked secret as an empty / zero-length or
cleared (zeroed) state, so a buffer is empty when every byte is zero,
the zero-length buffer included. -/
def u8aEmpty (l : Bytes) : Bool := l.all (fun b => b == 0)

/-- isLocked of the source: the secret key is absent or empty. -/
def isLocked (secretKey : Bytes) : Bool := u8aEmpty secretKey

/-- Oracle for the external hash and encoding primitives used by the
address transforms (blake2AsU8a, keccakAsU8a, secp256k1Expand,
ethereumEncode and the toSS58 callback given to createPair). -/
structure HashOracle where
  blake2AsU8a : Bytes → Bytes
  keccakAsU8a : Bytes → Bytes
  secp256k1Expand : Bytes → Bytes
  ethereumEncode : Bytes → String
  toSS58 : Bytes → String

/-- The TYPE_ADDRESS dispatch table of the source: the per-algorithm
address-raw transform. -/
def TYPE_ADDRESS (h : HashOracle) : KeypairType → Bytes → Bytes
  | .ecdsa => fun p => if 32 < p.length then h.blake2AsU8a p else p
  | .ed25519 => fun p => p
  | .ethereum => fun p => if p.length == 20 then p else h.keccakAsU8a (h.secp256k1Expand p)
  | .mldsa => fun p => h.blake2AsU8a p
  | .sr25519 => fun p => p

/-- encodeAddress of the createPair closure: apply the address-raw
transform, then the Ethereum hex codec for ethereum pairs and the
SS58 codec otherwise. -/
def encodeAddress (h : HashOracle) (st : PairState) : String :=
  let raw := TYPE_ADDRESS h st.type st.publicKey
  if st.type == .ethereum then h.ethereumEncode raw else h.toSS58 raw

/-- The one-byte discriminator table TYPE_PREFIX of the source,
renamed to stay within the lexical conventions of this file. -/
def typePrefixByte : KeypairType → Bytes
  | .ecdsa => [2]
  | .ed25519 => [0]
  | .ethereum => [2]
  | .mldsa => [3]
  | .sr25519 => [1]

/-- Oracle for the external per-algorithm sign primitives. -/
structure SignOracle where
  secp256k1Sign : Bytes → Keypair → HashType → Bytes
  ed25519Sign : Bytes → Keypair → Bytes
  mldsaSign : Bytes → Keypair → Bytes
  sr25519Sign : Bytes → Keypair → Bytes

/-- The TYPE_SIGNATURE dispatch table of the source. -/
def TYPE_SIGNATURE (so : SignOracle) : KeypairType → Bytes → Keypair → Bytes
  | .ecdsa => fun m p => so.secp256k1Sign m p .blake2
  | .ed25519 => so.ed25519Sign
  | .ethereum => fun m p => so.secp256k1Sign m p .keccak
  | .mldsa => so.mldsaSign
  | .sr25519 => so.sr25519Sign

/-- Oracle for the external per-algorithm seed expansion primitives
of the TYPE_FROM_SEED table. -/
structure SeedOracle where
  secp256k1FromSeed : Bytes → Keypair
  ed25519FromSeed : Bytes → Keypair
  mldsaPairFromSeed : Bytes → Keypair
  sr25519FromSeed : Bytes → Keypair

/-- The TYPE_FROM_SEED dispatch table of the source. -/
def TYPE_FROM_SEED (so : SeedOracle) : KeypairType → Bytes → Keypair
  | .ecdsa => so.secp256k1FromSeed
  | .ed25519 => so.ed25519FromSeed
  | .ethereum => so.secp256k1FromSeed
  | .mldsa => so.mldsaPairFromSeed
  | .sr25519 => so.sr25519FromSeed

/-- Oracle for the external PKCS8 persistence codec (decodePair,
encodePair), which lives outside src.  decodePair takes the
passphrase, the container bytes and the accepted legacy encodings; an
error models a thrown decryption or format failure. -/
structure Pkcs8Oracle where
  decodePair : Option String → Option Bytes → Option (List String) → Except PairError Keypair
  encodePair : Keypair → Option String → KeypairType → Bytes

/-- derive of the createPair closure.  keyExtractPath, the external
suri parser, is outside src, so derive takes the already-parsed
junction path; the returned state is the createPair of the derived
keypair with a fresh (empty) cached container, the algorithm
identifier unchanged. -/
def derive (s : HdkdSteps) (st : PairState) (path : List DeriveJunction)
    (newMeta : List (String × String)) : Except PairError PairState :=
  if st.type == .ethereum then .error .unableToDerive
  else if isLocked st.secretKey then .error .cannotDeriveLocked
  else
    match keyFromPath s ⟨st.publicKey, st.secretKey⟩ path st.type with
    | .error e => .error e
    | .ok derived => .ok ⟨derived.publicKey, derived.secretKey, st.type, newMeta, none, none⟩

/-- lock of the createPair closure: clear the secret key in place. -/
def lock (st : PairState) : PairState := { st with secretKey := [] }

/-- sign of the createPair closure: fails when locked, otherwise the
per-algorithm signature, with the one-byte discriminator prepended
when the caller asked for a self-describing signature. -/
def sign (so : SignOracle) (st : PairState) (message : Bytes) (withType : Bool) :
    Except PairError Bytes :=
  if isLocked st.secretKey then .error .cannotSignLocked
  else
    .ok ((if withType then typePrefixByte st.type else []) ++
      TYPE_SIGNATURE so st.type message ⟨st.publicKey, st.secretKey⟩)

/-- decodePkcs8 of the createPair closure: decode the container
(falling back to the cached one), then repopulate the key material,
with the generation-aware branch for mldsa (expanded 4896 and 2592
byte keys used directly, a 32-byte seed expanded, anything else a
hard error) and the legacy two-case rule for the other algorithms. -/
def decodePkcs8 (po : Pkcs8Oracle) (so : SeedOracle) (st : PairState)
    (passphrase : Option String) (userEncoded : Option Bytes) : Except PairError PairState :=
  match po.decodePair passphrase (userEncoded.orElse (fun _ => st.encoded)) st.encTypes with
  | .error e => .error e
  | .ok decoded =>
    if st.type == .mldsa then
      if decoded.secretKey.length == 4896 && decoded.publicKey.length == 2592 then
        .ok { st with publicKey := decoded.publicKey, secretKey := decoded.secretKey }
      else if decoded.secretKey.length == 32 then
        let pair := TYPE_FROM_SEED so st.type decoded.secretKey
        .ok { st with publicKey := pair.publicKey, secretKey := pair.secretKey }
      else
        .error (.invalidMldsaKeySizes decoded.secretKey.length decoded.publicKey.length)
    else
      if decoded.secretKey.length == 64 then
        .ok { st with publicKey := decoded.publicKey, secretKey := decoded.secretKey }
      else
        let pair := TYPE_FROM_SEED so st.type decoded.secretKey
        .ok { st with publicKey := pair.publicKey, secretKey := pair.secretKey }

/-- recode of the createPair closure: when the pair is locked and a
cached container exists, first decode it (repopulating the key
material), then re-encode with the current key material, cache the
fresh container and drop the legacy encodings. -/
def recode (po : Pkcs8Oracle) (so : SeedOracle) (st : PairState)
    (passphrase : Option String) : Except PairError (Bytes × PairState) :=
  match (if isLocked st.secretKey && st.encoded.isSome then
      decodePkcs8 po so st passphrase st.encoded
    else .ok st) with
  | .error e => .error e
  | .ok st1 =>
    let enc := po.encodePair ⟨st1.publicKey, st1.secretKey⟩ passphrase st1.type
    .ok (enc, { st1 with encoded := some enc, encTypes := none })

/-- encodePkcs8 of the createPair closure: exactly recode. -/
def encodePkcs8 (po : Pkcs8Oracle) (so : SeedOracle) (st : PairState)
    (passphrase : Option String) : Except PairError (Bytes × PairState) :=
  recode po so st passphrase

/-- verify of the createPair closure: for mldsa pairs the raw
signature is checked directly against the raw public key, every
exception swallowed into false; every other algorithm delegates to
signatureVerify on the address-transformed public key (decodeAddress
passing raw keys through unchanged) and reports its isValid flag. -/
def pairVerify (o : CryptoOracle) (w : WrapOracle) (h : HashOracle) (st : PairState)
    (message sigBytes signerPublic : Bytes) : Except VerifyError Bool :=
  if st.type == .mldsa then
    .ok (match o.mldsaVerify message sigBytes signerPublic with
      | some b => b
      | none => false)
  else
    match signatureVerify o w message sigBytes (TYPE_ADDRESS h st.type signerPublic) with
    | .error e => .error e
    | .ok r => .ok r.isValid

/-
Concrete oracle instances used by witnesses and counterexamples.
-/

/-- Wrap oracle of an unwrapped world: nothing is wrapped and the
wrap and unwrap helpers are the identity. -/
def wrapNone : WrapOracle := ⟨fun _ => false, fun _ => false, fun m => m, fun m => m⟩

/-- Wrap oracle of an ethereum-prefixed message: wrapped in the broad
sense, not bytes-wrapped, so the wrapping cannot be toggled. -/
def wrapEth : WrapOracle := ⟨fun _ => true, fun _ => false, fun m => m, fun m => m⟩

/-- Crypto oracle on which every native check returns false. -/
def oracleAllFalse : CryptoOracle :=
  ⟨fun _ _ _ => some false, fun _ _ _ => some false,
    fun _ _ _ => some false, fun _ _ _ _ => some false⟩

/-- Crypto oracle on which only sr25519 validates. -/
def oracleSrOnly : CryptoOracle :=
  { oracleAllFalse with sr25519Verify := fun _ _ _ => some true }

/-- Crypto oracle on which ed25519 validates exactly the signatures
of length 64. -/
def oracleEdFull : CryptoOracle :=
  { oracleAllFalse with ed25519Verify := fun _ s _ => some (s.length == 64) }

/-
Helper lemmas on the detection scan.
-/

/-- The scan returns the first listed algorithm whose check returns
true, skipping every earlier algorithm whose check fails or throws. -/
theorem detectLoop_append_first (o : CryptoOracle) (m s p : Bytes)
    (pre : List KeypairType) (c : KeypairType) (post : List KeypairType)
    (hok : verify1 o c m s p = some true)
    (hpre : ∀ c' ∈ pre, verify1 o c' m s p ≠ some true) :
    detectLoop o m s p (pre ++ c :: post) = some c := by
  induction pre with
  | nil => simp [detectLoop, hok]
  | cons a as ih =>
    have ha : verify1 o a m s p ≠ some true := hpre a (by simp)
    have htail : detectLoop o m s p (as ++ c :: post) = some c :=
      ih (fun c' hc' => hpre c' (by simp [hc']))
    rcases hva : verify1 o a m s p with _ | b
    · simpa [detectLoop, hva] using htail
    · cases b
      · simpa [detectLoop, hva] using htail
      · exact absurd hva ha

/-- The scan returns none when no listed algorithm validates. -/
theorem detectLoop_none (o : CryptoOracle) (m s p : Bytes) (vs : List KeypairType)
    (h : ∀ c ∈ vs, verify1 o c m s p ≠ some true) :
    detectLoop o m s p vs = none := by
  induction vs with
  | nil => rfl
  | cons a as ih =>
    have ha : verify1 o a m s p ≠ some true := h a (by simp)
    have htail : detectLoop o m s p as = none :=
      ih (fun c' hc' => h c' (by simp [hc']))
    rcases hva : verify1 o a m s p with _ | b
    · simpa [detectLoop, hva] using htail
    · cases b
      · simpa [detectLoop, hva] using htail
      · exact absurd hva ha

/-- C1.  The claim asserts that a prefixed signature is verified
against exactly the one algorithm implied by its first byte and no
other.  The code refutes this for bytes 0 to 2: here a signature with
first byte 0 (which the claim reads as implying classic Ed25519) and
length 65 is accepted with crypto recorded as sr25519, because the
length-65 branch of verifyMultisig tries all three 64-byte families
on the stripped signature.  Were only the byte-implied algorithm
tried, the recorded crypto could only be ed25519 or none. -/
theorem C1_counterexample :
    signatureVerify oracleSrOnly wrapNone [] (0 :: List.replicate 64 9) [] =
      .ok ⟨some .sr25519, true, false, []⟩ := by
  rfl

/-- C1, amended.  For a prefixed signature with first byte 3 and the
prefixed lattice length, verifyMultisig strips the byte and consults
exactly the mldsa verifier: the result is the single-verifier
detection on the stripped signature, and it is unchanged under any
change of the other algorithm oracles.  For first byte 0, 1 or 2 the
byte only selects the prefixed shape and dispatch is by length:
length 66 runs the two secp256k1 variants on the stripped signature;
length 65 runs the three 64-byte families on the stripped signature
and, on failure, the two secp256k1 variants on the full signature,
resetting crypto to none when both stages fail. -/
theorem C1_theorem :
    (∀ (o : CryptoOracle) (r : VerifyResult) (input : VerifyInput),
      input.signature.headD 0 = 3 →
      input.signature.length = MLDSA_SIGNATURE_LENGTH + 1 →
      verifyMultisig o r input =
        .ok (verifyDetect o r ⟨input.message, input.publicKey, input.signature.tail⟩
          [.mldsa])) ∧
    (∀ (o o' : CryptoOracle) (r : VerifyResult) (input : VerifyInput),
      o.mldsaVerify = o'.mldsaVerify →
      input.signature.headD 0 = 3 →
      input.signature.length = MLDSA_SIGNATURE_LENGTH + 1 →
      verifyMultisig o r input = verifyMultisig o' r input) ∧
    (∀ (o : CryptoOracle) (r : VerifyResult) (input : VerifyInput),
      (input.signature.headD 0 = 0 ∨ input.signature.headD 0 = 1 ∨
        input.signature.headD 0 = 2) →
      input.signature.length = 66 →
      verifyMultisig o r input =
        .ok (verifyDetect o r ⟨input.message, input.publicKey, input.signature.tail⟩
          VERIFIERS_ECDSA)) ∧
    (∀ (o : CryptoOracle) (r : VerifyResult) (input : VerifyInput),
      (input.signature.headD 0 = 0 ∨ input.signature.headD 0 = 1 ∨
        input.signature.headD 0 = 2) →
      input.signature.length = 65 →
      verifyMultisig o r input =
        .ok (let r1 := verifyDetect o r
              ⟨input.message, input.publicKey, input.signature.tail⟩ VERIFIERS
            let r2 := if !r1.isValid then verifyDetect o r1 input VERIFIERS_ECDSA else r1
            if !r2.isValid then { r2 with crypto := none } else r2)) := by
  refine ⟨?_, ?_, ?_, ?_⟩
  · intro o r input h0 hl
    have h0' : (input.signature.head?).getD 0 = 3 := by simpa using h0
    simp [verifyMultisig, h0', hl, MLDSA_SIGNATURE_LENGTH]
  · intro o o' r input hmv h0 hl
    have h0' : (input.signature.head?).getD 0 = 3 := by simpa using h0
    simp only [verifyMultisig, hl, MLDSA_SIGNATURE_LENGTH]
    simp [h0', verifyDetect, detectLoop, verify1, hmv]
  · intro o r input h0 hl
    have h0' : (input.signature.head?).getD 0 = 0 ∨ (input.signature.head?).getD 0 = 1 ∨
        (input.signature.head?).getD 0 = 2 := by simpa using h0
    rcases h0' with h0' | h0' | h0' <;>
      simp [verifyMultisig, h0', hl, MLDSA_SIGNATURE_LENGTH]
  · intro o r input h0 hl
    have h0' : (input.signature.head?).getD 0 = 0 ∨ (input.signature.head?).getD 0 = 1 ∨
        (input.signature.head?).getD 0 = 2 := by simpa using h0
    rcases h0' with h0' | h0' | h0' <;>
      simp [verifyMultisig, h0', hl, MLDSA_SIGNATURE_LENGTH]

/-- Witness for C1_theorem: each clause applied at a concrete
prefixed input (first byte 3 at the prefixed lattice length; two
oracles agreeing on mldsa; first byte 2 at length 66; first byte 0 at
length 65), the resulting values evaluated. -/
theorem C1_witness :
    (verifyMultisig oracleAllFalse ⟨none, false, false, []⟩
        ⟨[], [], 3 :: List.replicate 4627 0⟩ = .ok ⟨none, false, false, []⟩) ∧
    (verifyMultisig oracleAllFalse ⟨none, false, false, []⟩
        ⟨[], [], 3 :: List.replicate 4627 0⟩ =
      verifyMultisig oracleSrOnly ⟨none, false, false, []⟩
        ⟨[], [], 3 :: List.replicate 4627 0⟩) ∧
    (verifyMultisig oracleAllFalse ⟨none, false, false, []⟩
        ⟨[], [], 2 :: List.replicate 65 7⟩ = .ok ⟨none, false, false, []⟩) ∧
    (verifyMultisig oracleSrOnly ⟨none, false, false, []⟩
        ⟨[], [], 0 :: List.replicate 64 9⟩ =
      .ok ⟨some .sr25519, true, false, []⟩) := by
  have hlen : (3 :: List.replicate 4627 0).length = MLDSA_SIGNATURE_LENGTH + 1 := by
    rw [List.length_cons, List.length_replicate]; rfl
  refine ⟨?_, ?_, ?_, ?_⟩
  · exact (C1_theorem.1 oracleAllFalse ⟨none, false, false, []⟩
      ⟨[], [], 3 :: List.replicate 4627 0⟩ rfl hlen).trans rfl
  · exact C1_theorem.2.1 oracleAllFalse oracleSrOnly ⟨none, false, false, []⟩
      ⟨[], [], 3 :: List.replicate 4627 0⟩ rfl rfl hlen
  · exact (C1_theorem.2.2.1 oracleAllFalse ⟨none, false, false, []⟩
      ⟨[], [], 2 :: List.replicate 65 7⟩ (Or.inr (Or.inr rfl))
      (by rw [List.length_cons, List.length_replicate])).trans rfl
  · exact (C1_theorem.2.2.2 oracleSrOnly ⟨none, false, false, []⟩
      ⟨[], [], 0 :: List.replicate 64 9⟩ (Or.inl rfl)
      (by rw [List.length_cons, List.length_replicate])).trans rfl

/-- Follows the words of the spec for the bare path of claim C2, for
comparison with the source definition verifyDetectAll: try the three
64-byte families on the signature with its first byte stripped, then
on failure the two secp256k1 variants on the full signature, setting
crypto to none when nothing validates. -/
def bareSpecDetect (o : CryptoOracle) (result : VerifyResult) (input : VerifyInput) :
    VerifyResult :=
  let r1 := verifyDetect o result
    ⟨input.message, input.publicKey, input.signature.tail⟩ VERIFIERS
  let r2 := if !r1.isValid then verifyDetect o r1 input VERIFIERS_ECDSA else r1
  if !r2.isValid then { r2 with crypto := none } else r2

/-- C2.  The claim asserts that the bare path strips the first byte
before trying the three 64-byte families.  The code refutes this: the
bare path is verifyDetect over all five verifiers on the full,
unstripped signature.  On an oracle whose ed25519 check accepts
exactly signatures of length 64, a bare 64-byte signature is accepted
by signatureVerify (ed25519 saw all 64 bytes), while the procedure
worded by the claim, run on the same input, strips the first byte,
finds nothing valid and ends invalid with crypto none. -/
theorem C2_counterexample :
    signatureVerify oracleEdFull wrapNone [] (List.replicate 64 5) [] =
      .ok ⟨some .ed25519, true, false, []⟩ ∧
    bareSpecDetect oracleEdFull ⟨none, false, false, []⟩ ⟨[], [], List.replicate 64 5⟩ =
      ⟨none, false, false, []⟩ := by
  exact ⟨rfl, rfl⟩

/-- C2, amended.  For a signature not matching the prefixed shape,
signatureVerify dispatches each pass to verifyDetect over the five
families in the order ed25519, mldsa, sr25519, secp256k1-generic,
secp256k1-ethereum, every check receiving the full unstripped
signature: the first family whose native check returns true is
recorded as the result crypto with isValid true, and when no family
validates the result has isValid false with crypto left at its
incoming value (none on entry to the first pass, and still none after
it, so an entirely failed detection reports crypto none). -/
theorem C2_theorem :
    (∀ sig : Bytes, isPrefixedShape sig = false →
      getVerifyFn sig =
        fun o result input => .ok (verifyDetectAll o result input)) ∧
    (∀ (o : CryptoOracle) (r : VerifyResult) (input : VerifyInput)
      (c : KeypairType) (pre post : List KeypairType),
      VERIFIERS ++ VERIFIERS_ECDSA = pre ++ c :: post →
      verify1 o c input.message input.signature input.publicKey = some true →
      (∀ c' ∈ pre, verify1 o c' input.message input.signature input.publicKey ≠ some true) →
      verifyDetectAll o r input = { r with crypto := some c, isValid := true }) ∧
    (∀ (o : CryptoOracle) (r : VerifyResult) (input : VerifyInput),
      (∀ c ∈ VERIFIERS ++ VERIFIERS_ECDSA,
        verify1 o c input.message input.signature input.publicKey ≠ some true) →
      verifyDetectAll o r input = { r with isValid := false }) := by
  refine ⟨?_, ?_, ?_⟩
  · intro sig hshape
    simp [getVerifyFn, hshape]
  · intro o r input c pre post hsplit hok hpre
    have := detectLoop_append_first o input.message input.signature input.publicKey
      pre c post hok hpre
    rw [verifyDetectAll, verifyDetect, hsplit, this]
  · intro o r input hall
    have := detectLoop_none o input.message input.signature input.publicKey
      (VERIFIERS ++ VERIFIERS_ECDSA) hall
    rw [verifyDetectAll, verifyDetect, this]

/-- Witness for C2_theorem: the clauses applied at a bare 64-byte
signature, with an oracle validating ed25519 as the first match, and
at the all-false oracle. -/
theorem C2_witness :
    (getVerifyFn (List.replicate 64 5) =
      fun o result input => .ok (verifyDetectAll o result input)) ∧
    (verifyDetectAll oracleEdFull ⟨none, false, false, []⟩ ⟨[], [], List.replicate 64 5⟩ =
      ⟨some .ed25519, true, false, []⟩) ∧
    (verifyDetectAll oracleAllFalse ⟨none, false, false, []⟩ ⟨[], [], List.replicate 64 5⟩ =
      ⟨none, false, false, []⟩) := by
  refine ⟨C2_theorem.1 (List.replicate 64 5) rfl, ?_, ?_⟩
  · exact C2_theorem.2.1 oracleEdFull ⟨none, false, false, []⟩
      ⟨[], [], List.replicate 64 5⟩ .ed25519 [] [.mldsa, .sr25519, .ecdsa, .ethereum]
      rfl rfl (by intro c' hc'; cases hc')
  · exact C2_theorem.2.2 oracleAllFalse ⟨none, false, false, []⟩
      ⟨[], [], List.replicate 64 5⟩
      (by intro c hc; cases c <;> simp [verify1, oracleAllFalse])

/-- C3.  The claim asserts that a signature whose length matches the
prefixed window but whose first byte is outside 0..3 makes
signatureVerify throw a hard format error.  The code refutes this: a
65-byte signature with first byte 4 fails the shape test of
getVerifyFn, is routed to the bare auto-detect path, and
signatureVerify returns a normal invalid result instead of
throwing. -/
theorem C3_counterexample :
    signatureVerify oracleAllFalse wrapNone [] (4 :: List.replicate 64 0) [] =
      .ok ⟨none, false, false, []⟩ := by
  rfl

/-- C3, amended.  A signature of length 65, 66 or lattice-length+1
whose first byte is outside 0..3 is classified bare: signatureVerify
returns a normal Except.ok verification result (never the
discriminator error).  The discriminator guard does exist inside
verifyMultisig, which would throw the unknown-crypto-type error on
exactly such an input, but the shape test of getVerifyFn routes these
signatures to verifyDetect, so that guard is unreachable from
signatureVerify. -/
theorem C3_theorem (o : CryptoOracle) (w : WrapOracle) (msg sig pk : Bytes)
    (hlen : sig.length = 65 ∨ sig.length = 66 ∨
      sig.length = MLDSA_SIGNATURE_LENGTH + 1)
    (h0 : sig.headD 0 ≠ 0) (h1 : sig.headD 0 ≠ 1) (h2 : sig.headD 0 ≠ 2)
    (h3 : sig.headD 0 ≠ 3) :
    (∃ r, signatureVerify o w msg sig pk = .ok r) ∧
    (∀ (result : VerifyResult) (input : VerifyInput), input.signature = sig →
      verifyMultisig o result input = .error (.unknownCryptoType (sig.headD 0))) := by
  simp only [List.headD_eq_head?] at h0 h1 h2 h3
  have hshape : isPrefixedShape sig = false := by
    simp [isPrefixedShape, List.headD_eq_head?, h0, h1, h2, h3]
  have hgfn : getVerifyFn sig =
      fun o result input => .ok (verifyDetectAll o result input) := by
    simp [getVerifyFn, hshape]
  have hv : VALID_SIG_LENGTHS.contains sig.length = true := by
    rcases hlen with h | h | h <;> rw [h] <;> rfl
  constructor
  · unfold signatureVerify
    rw [hv, hgfn]
    simp only [Bool.not_true, Bool.false_eq_true, if_false]
    split
    · exact ⟨_, rfl⟩
    · exact ⟨_, rfl⟩
  · intro result input hsig
    simp only [verifyMultisig, hsig]
    simp [List.headD_eq_head?, h0, h1, h2, h3]

/-- Witness for C3_theorem: a 65-byte signature with first byte 4
under the all-false oracle yields a normal invalid result from
signatureVerify, while verifyMultisig on the same input throws the
discriminator error. -/
theorem C3_witness :
    (∃ r, signatureVerify oracleAllFalse wrapNone [] (4 :: List.replicate 64 0) [] =
      .ok r) ∧
    verifyMultisig oracleAllFalse ⟨none, false, false, []⟩
      ⟨[], [], 4 :: List.replicate 64 0⟩ = .error (.unknownCryptoType 4) := by
  have h := C3_theorem oracleAllFalse wrapNone [] (4 :: List.replicate 64 0) []
    (Or.inl (by rw [List.length_cons, List.length_replicate]))
    (by decide) (by decide) (by decide) (by decide)
  exact ⟨h.1, h.2 ⟨none, false, false, []⟩ ⟨[], [], 4 :: List.replicate 64 0⟩ rfl⟩

/-- C4, confirmed.  A signature whose length is outside the table of
valid lengths (64, 65, 66, the lattice signature length 4627, or
4628) makes signatureVerify throw the invalid-length error; the
conclusion holds for every crypto oracle and every wrap oracle, so no
per-algorithm check can have been consulted.  In particular every
67-byte signature is rejected this way. -/
theorem C4_theorem (o : CryptoOracle) (w : WrapOracle) (msg sig pk : Bytes) :
    (VALID_SIG_LENGTHS.contains sig.length = false →
      signatureVerify o w msg sig pk = .error (.invalidLength sig.length)) ∧
    (sig.length = 67 →
      signatureVerify o w msg sig pk = .error (.invalidLength 67)) := by
  constructor
  · intro h
    unfold signatureVerify
    rw [h]
    rfl
  · intro h67
    unfold signatureVerify
    rw [h67]
    rfl

/-- Witness for C4_theorem: a 67-byte signature is rejected with the
invalid-length error under the all-false oracle. -/
theorem C4_witness :
    signatureVerify oracleAllFalse wrapNone [] (List.replicate 67 1) [] =
      .error (.invalidLength 67) := by
  exact (C4_theorem oracleAllFalse wrapNone [] (List.replicate 67 1) []).2
    (by rw [List.length_replicate])

/-- C5, confirmed.  For a valid-length signature, signatureVerify
runs at most two passes of the dispatched verify function.  With the
first pass written out explicitly (initial result carrying crypto
none and the broad wrapped flag): an error propagates with no retry;
a first pass that found an algorithm (crypto set) is returned
unchanged with no retry; a first pass that found none while the
message is wrapped in the broad sense but not bytes-wrapped (the
untoggleable state) is returned unchanged; otherwise the final result
is exactly one further pass on the message with its wrapping toggled,
unwrapping a bytes-wrapped message and wrapping an unwrapped one.
These cases are exhaustive, so the result is final after at most two
passes. -/
theorem C5_theorem (o : CryptoOracle) (w : WrapOracle) (msg sig pk : Bytes)
    (hlen : VALID_SIG_LENGTHS.contains sig.length = true) :
    (∀ e, getVerifyFn sig o ⟨none, false, w.isWrappedAny msg, pk⟩ ⟨msg, pk, sig⟩ =
        .error e →
      signatureVerify o w msg sig pk = .error e) ∧
    (∀ r1, getVerifyFn sig o ⟨none, false, w.isWrappedAny msg, pk⟩ ⟨msg, pk, sig⟩ =
        .ok r1 →
      (r1.crypto.isSome = true → signatureVerify o w msg sig pk = .ok r1) ∧
      (r1.crypto = none → r1.isWrapped = true → w.isWrappedBytes msg = false →
        signatureVerify o w msg sig pk = .ok r1) ∧
      (r1.crypto = none → (r1.isWrapped && !w.isWrappedBytes msg) = false →
        signatureVerify o w msg sig pk =
          getVerifyFn sig o r1
            ⟨if w.isWrappedBytes msg then w.unwrapBytes msg else w.wrapBytes msg,
              pk, sig⟩)) := by
  constructor
  · intro e he
    simp only [signatureVerify, hlen]
    rw [he]
    simp
  · intro r1 h1
    refine ⟨?_, ?_, ?_⟩
    · intro hc
      simp only [signatureVerify, hlen]
      rw [h1]
      simp [hc]
    · intro hc hw hwb
      simp only [signatureVerify, hlen]
      rw [h1]
      simp [hc, hw, hwb]
    · intro hc hcond
      simp only [signatureVerify, hlen]
      rw [h1]
      simp [hc, hcond]

/-- Witness for C5_theorem: the valid-first-pass clause at the
sr25519-only oracle on a bare 64-byte signature; the untoggleable
clause at the ethereum-style wrap oracle with the all-false oracle;
the retry clause at the unwrapped wrap oracle with the all-false
oracle, where the second pass runs on the identically wrapped
message. -/
theorem C5_witness :
    (signatureVerify oracleSrOnly wrapNone [] (List.replicate 64 5) [] =
      .ok ⟨some .sr25519, true, false, []⟩) ∧
    (signatureVerify oracleAllFalse wrapEth [] (List.replicate 64 5) [] =
      .ok ⟨none, false, true, []⟩) ∧
    (signatureVerify oracleAllFalse wrapNone [] (List.replicate 64 5) [] =
      getVerifyFn (List.replicate 64 5) oracleAllFalse ⟨none, false, false, []⟩
        ⟨[], [], List.replicate 64 5⟩) := by
  refine ⟨?_, ?_, ?_⟩
  · exact ((C5_theorem oracleSrOnly wrapNone [] (List.replicate 64 5) []
      (by rw [List.length_replicate]; rfl)).2 ⟨some .sr25519, true, false, []⟩
      rfl).1 rfl
  · exact ((C5_theorem oracleAllFalse wrapEth [] (List.replicate 64 5) []
      (by rw [List.length_replicate]; rfl)).2 ⟨none, false, true, []⟩
      rfl).2.1 rfl rfl rfl
  · exact ((C5_theorem oracleAllFalse wrapNone [] (List.replicate 64 5) []
      (by rw [List.length_replicate]; rfl)).2 ⟨none, false, false, []⟩
      rfl).2.2 rfl rfl

/-- Derivation steps whose ecdsa step prepends a byte to the public
key, the other steps being the identity; used to exhibit concrete
derivations. -/
def stepsConsOne : HdkdSteps :=
  ⟨fun p _ => ⟨1 :: p.publicKey, p.secretKey⟩,
    fun p _ => p, fun p _ => p, fun p _ => p⟩

/-- Hash oracle whose hashes are the identity and whose text codecs
are constant; used to exhibit concrete addresses. -/
def hashId : HashOracle :=
  ⟨fun b => b, fun b => b, fun b => b, fun _ => "eth", fun _ => "ss58"⟩

/-- Sign oracle producing a fixed one-byte signature. -/
def signConst : SignOracle :=
  ⟨fun _ _ _ => [9], fun _ _ => [9], fun _ _ => [9], fun _ _ => [9]⟩

/-- C6.  The claim asserts that the HDKD registry maps the
Ethereum-style variant to unsupported, so that stepping a junction on
an ethereum keypair fails rather than producing a derived key.  The
code refutes this: the generators registry maps ethereum to
keyHdkdEcdsa, so keyFromPath on an ethereum keypair with one junction
succeeds and returns the ecdsa-stepped key (here the step visibly ran
and prepended a byte). -/
theorem C6_counterexample :
    keyFromPath stepsConsOne ⟨[], []⟩ [⟨[], true⟩] .ethereum = .ok ⟨[1], []⟩ := by
  rfl

/-- C6, amended.  Pair.derive on an Ethereum-typed pair throws the
unable-to-derive usage error before any derivation step runs, for
every path; but the derivation-step registry itself maps the
Ethereum-style variant to the ecdsa step function (the source marks
this Substrate-compatible), not to unsupported, so keyFromPath alone
does not fail on ethereum. -/
theorem C6_theorem :
    (∀ (s : HdkdSteps) (st : PairState) (path : List DeriveJunction)
      (m : List (String × String)), st.type = .ethereum →
      derive s st path m = .error .unableToDerive) ∧
    (∀ s : HdkdSteps, generators s .ethereum = some s.keyHdkdEcdsa) := by
  constructor
  · intro s st path m hty
    simp [derive, hty]
  · intro s
    rfl

/-- Witness for C6_theorem: derive on a concrete Ethereum-typed pair
fails, and the concrete registry entry is the ecdsa step. -/
theorem C6_witness :
    derive stepsConsOne ⟨[4], [7], .ethereum, [], none, none⟩ [⟨[], true⟩] [] =
      .error .unableToDerive ∧
    generators stepsConsOne .ethereum = some stepsConsOne.keyHdkdEcdsa := by
  exact ⟨C6_theorem.1 stepsConsOne ⟨[4], [7], .ethereum, [], none, none⟩
    [⟨[], true⟩] [] rfl, C6_theorem.2 stepsConsOne⟩

/-- Folding the empty path is the identity for every algorithm, since
every generators entry exists and List.foldl over the empty list
returns the start value. -/
theorem keyFromPath_nil (s : HdkdSteps) (kp : Keypair) (t : KeypairType) :
    keyFromPath s kp [] t = .ok kp := by
  cases t <;> rfl

/-- C7, confirmed.  keyFromPath with the empty junction path returns
the original keypair unchanged for every algorithm type, and for
every non-Ethereum unlocked pair, derive with the empty path yields a
pair whose public key, secret key and encoded address equal those of
the original. -/
theorem C7_theorem :
    (∀ (s : HdkdSteps) (kp : Keypair) (t : KeypairType),
      keyFromPath s kp [] t = .ok kp) ∧
    (∀ (s : HdkdSteps) (h : HashOracle) (st : PairState)
      (m : List (String × String)),
      st.type ≠ .ethereum → isLocked st.secretKey = false →
      ∃ st', derive s st [] m = .ok st' ∧
        st'.publicKey = st.publicKey ∧
        st'.secretKey = st.secretKey ∧
        encodeAddress h st' = encodeAddress h st) := by
  constructor
  · exact keyFromPath_nil
  · intro s h st m hty hlock
    refine ⟨⟨st.publicKey, st.secretKey, st.type, m, none, none⟩, ?_, rfl, rfl, rfl⟩
    simp only [derive, hlock]
    rw [keyFromPath_nil]
    simp [hty]

/-- Witness for C7_theorem: the empty-path identity at a concrete
mldsa keypair, and empty-path derive at a concrete unlocked ed25519
pair preserving public key and address. -/
theorem C7_witness :
    keyFromPath stepsConsOne ⟨[2], [3]⟩ [] .mldsa = .ok ⟨[2], [3]⟩ ∧
    (∃ st', derive stepsConsOne ⟨[4], [7], .ed25519, [], none, none⟩ [] [] = .ok st' ∧
      st'.publicKey = [4] ∧ st'.secretKey = [7] ∧
      encodeAddress hashId st' =
        encodeAddress hashId ⟨[4], [7], .ed25519, [], none, none⟩) := by
  exact ⟨C7_theorem.1 stepsConsOne ⟨[2], [3]⟩ .mldsa,
    C7_theorem.2 stepsConsOne hashId ⟨[4], [7], .ed25519, [], none, none⟩ []
      (by decide) rfl⟩

/-- C8, confirmed.  lock is idempotent, leaves the public key and the
encoded address unchanged, and sign on the locked pair fails with the
locked-key error for every message; conversely sign succeeds on any
state whose secret key is not in the locked (all-zero or empty)
state, so the failure lasts exactly until key material is
restored. -/
theorem C8_theorem (h : HashOracle) (so : SignOracle) (st : PairState)
    (msg : Bytes) (b : Bool) :
    lock (lock st) = lock st ∧
    (lock st).publicKey = st.publicKey ∧
    encodeAddress h (lock st) = encodeAddress h st ∧
    sign so (lock st) msg b = .error .cannotSignLocked ∧
    (isLocked st.secretKey = false → ∃ out, sign so st msg b = .ok out) := by
  refine ⟨rfl, rfl, rfl, rfl, ?_⟩
  intro hlock
  simp [sign, hlock]

/-- Witness for C8_theorem: the lock and sign properties at a
concrete unlocked ed25519 pair with a nonzero secret key. -/
theorem C8_witness :
    lock (lock ⟨[4], [7], .ed25519, [], none, none⟩) =
      lock ⟨[4], [7], .ed25519, [], none, none⟩ ∧
    (lock (⟨[4], [7], .ed25519, [], none, none⟩ : PairState)).publicKey = [4] ∧
    encodeAddress hashId (lock ⟨[4], [7], .ed25519, [], none, none⟩) =
      encodeAddress hashId ⟨[4], [7], .ed25519, [], none, none⟩ ∧
    sign signConst (lock ⟨[4], [7], .ed25519, [], none, none⟩) [] false =
      .error .cannotSignLocked ∧
    (∃ out, sign signConst ⟨[4], [7], .ed25519, [], none, none⟩ [] false = .ok out) := by
  have h := C8_theorem hashId signConst ⟨[4], [7], .ed25519, [], none, none⟩ [] false
  exact ⟨h.1, h.2.1, h.2.2.1, h.2.2.2.1, h.2.2.2.2 rfl⟩

/-- Container codec oracle that decodes every container to a fixed
keypair with a 64-byte nonzero secret key, and encodes a pair as its
public key. -/
def pkcs8Const : Pkcs8Oracle :=
  ⟨fun _ _ _ => .ok ⟨[7], List.replicate 64 1⟩, fun kp _ _ => kp.publicKey⟩

/-- Seed oracle expanding every seed to a fixed keypair. -/
def seedConst : SeedOracle :=
  ⟨fun _ => ⟨[8], [8]⟩, fun _ => ⟨[8], [8]⟩, fun _ => ⟨[8], [8]⟩, fun _ => ⟨[8], [8]⟩⟩

/-- C9, confirmed.  encodePkcs8 (the toJson path routes through the
same recode) on a locked pair holding a cached encoded container
first decodes that container with the supplied passphrase and
repopulates the public and secret key material, then encodes exactly
the repopulated material; when the decoded secret key is nonzero the
resulting state is unlocked, so encoding transitions the locked pair
to the unlocked state as a side effect.  Stated here for the legacy
(non-mldsa) branch with an already-expanded 64-byte secret key. -/
theorem C9_theorem (po : Pkcs8Oracle) (so : SeedOracle) (st : PairState)
    (pass : Option String) (e : Bytes) (kp : Keypair)
    (hlock : isLocked st.secretKey = true)
    (henc : st.encoded = some e)
    (hdec : po.decodePair pass (some e) st.encTypes = .ok kp)
    (hty : st.type ≠ .mldsa)
    (hkl : kp.secretKey.length = 64) :
    ∃ enc st', encodePkcs8 po so st pass = .ok (enc, st') ∧
      st'.publicKey = kp.publicKey ∧
      st'.secretKey = kp.secretKey ∧
      enc = po.encodePair ⟨kp.publicKey, kp.secretKey⟩ pass st.type ∧
      st'.encoded = some enc ∧
      (u8aEmpty kp.secretKey = false → isLocked st'.secretKey = false) := by
  have hty' : (st.type == .mldsa) = false := by simp [hty]
  have hkl' : (kp.secretKey.length == 64) = true := by simp [hkl]
  refine ⟨po.encodePair ⟨kp.publicKey, kp.secretKey⟩ pass st.type,
    ⟨kp.publicKey, kp.secretKey, st.type, st.meta,
      some (po.encodePair ⟨kp.publicKey, kp.secretKey⟩ pass st.type), none⟩,
    ?_, rfl, rfl, rfl, rfl, fun hne => hne⟩
  simp only [encodePkcs8, recode, decodePkcs8, hlock, henc]
  simp only [Option.isSome_some, Bool.and_self, if_true, Option.orElse, Option.some_bind]
  rw [hdec]
  simp [hty', hkl']

/-- Witness for C9_theorem: a locked ed25519 pair with cached
container bytes, under the constant codec oracle, is repopulated and
re-encoded from the decoded 64-byte secret key. -/
theorem C9_witness :
    ∃ enc st', encodePkcs8 pkcs8Const seedConst
        ⟨[], [], .ed25519, [], some [9], none⟩ none = .ok (enc, st') ∧
      st'.publicKey = [7] ∧
      st'.secretKey = List.replicate 64 1 ∧
      enc = pkcs8Const.encodePair ⟨[7], List.replicate 64 1⟩ none .ed25519 ∧
      st'.encoded = some enc ∧
      (u8aEmpty (List.replicate 64 1) = false → isLocked st'.secretKey = false) := by
  exact C9_theorem pkcs8Const seedConst ⟨[], [], .ed25519, [], some [9], none⟩
    none [9] ⟨[7], List.replicate 64 1⟩ rfl rfl rfl (by decide)
    (by rw [List.length_replicate])

/-- Crypto oracle whose mldsa check throws (models the underlying
verifier raising on malformed input) and whose other checks return
false. -/
def oracleThrow : CryptoOracle :=
  { oracleAllFalse with mldsaVerify := fun _ _ _ => none }

/-- C10, confirmed.  For an mldsa-typed pair, the verify method never
throws: it returns ok for every input; a throwing underlying check
(none) is swallowed into ok false; a returning check is passed
through; the result depends only on the raw mldsa check applied to
the raw signature and raw public key, being invariant under any
change of the wrap oracle, the hash oracle carrying the address-raw
transform, and every other algorithm oracle (so neither the transform
nor the auto-detecting engine is consulted); and on the same input
signatureVerify would throw the hard invalid-length error whenever
the signature length is outside the valid table, 67 in this
statement. -/
theorem C10_theorem (o o' : CryptoOracle) (w w' : WrapOracle) (h h' : HashOracle)
    (st : PairState) (msg sigBytes pk : Bytes)
    (hty : st.type = .mldsa) :
    (∃ b, pairVerify o w h st msg sigBytes pk = .ok b) ∧
    (o.mldsaVerify msg sigBytes pk = none →
      pairVerify o w h st msg sigBytes pk = .ok false) ∧
    (∀ b, o.mldsaVerify msg sigBytes pk = some b →
      pairVerify o w h st msg sigBytes pk = .ok b) ∧
    (o.mldsaVerify = o'.mldsaVerify →
      pairVerify o w h st msg sigBytes pk = pairVerify o' w' h' st msg sigBytes pk) ∧
    (sigBytes.length = 67 →
      signatureVerify o w msg sigBytes pk = .error (.invalidLength 67)) := by
  refine ⟨?_, ?_, ?_, ?_, ?_⟩
  · simp only [pairVerify, hty]
    exact ⟨_, rfl⟩
  · intro hn
    simp [pairVerify, hty, hn]
  · intro b hb
    simp [pairVerify, hty, hb]
  · intro hmv
    simp [pairVerify, hty, hmv]
  · intro h67
    unfold signatureVerify
    rw [h67]
    rfl

/-- Witness for C10_theorem: an mldsa pair under the throwing oracle
on a 67-byte signature returns ok false from pairVerify (the thrown
check swallowed, the result unchanged under a different wrap oracle),
while signatureVerify on the same signature throws the
invalid-length error. -/
theorem C10_witness :
    (∃ b, pairVerify oracleThrow wrapNone hashId ⟨[], [], .mldsa, [], none, none⟩
      [] (List.replicate 67 1) [] = .ok b) ∧
    (pairVerify oracleThrow wrapNone hashId ⟨[], [], .mldsa, [], none, none⟩
      [] (List.replicate 67 1) [] = .ok false) ∧
    (pairVerify oracleThrow wrapNone hashId ⟨[], [], .mldsa, [], none, none⟩
        [] (List.replicate 67 1) [] =
      pairVerify oracleThrow wrapEth hashId ⟨[], [], .mldsa, [], none, none⟩
        [] (List.replicate 67 1) []) ∧
    (signatureVerify oracleThrow wrapNone [] (List.replicate 67 1) [] =
      .error (.invalidLength 67)) := by
  have h := C10_theorem oracleThrow oracleThrow wrapNone wrapEth hashId hashId
    ⟨[], [], .mldsa, [], none, none⟩ [] (List.replicate 67 1) [] rfl
  exact ⟨h.1, h.2.1 rfl, h.2.2.2.1 rfl, h.2.2.2.2 (by rw [List.length_replicate])⟩

end QuantusCommon
